import Mathlib

/-!
Shallow embedding of the transactional filesystem engine in
`src/fs/tikv_fs.rs` (struct `TiFs` and its `AsyncFileSystem` impl),
together with proofs about its dispatcher operations.

Modelling conventions:
* Rust `u64`/`usize` values are `Nat`; `i64`/`i32` values are `Int`, with
  explicit reduction modulo `2 ^ 64` where the source performs an `as` cast.
* File names are byte lists (`List UInt8`); `name.len()` is `List.length`.
* Fallible code returns `Except FsError α`.
* KV-transaction primitives (`Txn::read_inode`, `Txn::save_inode`, ...) live
  in `src/fs/transaction.rs`, which is not part of the provided sources; they
  are modelled from the spec where needed, with doc comments saying so.
-/

namespace TiFs

/-- Constant `TiFs::MAX_NAME_LEN = 1 << 8` (tikv_fs.rs line 46). -/
def MAX_NAME_LEN : Nat := 1 <<< 8

/-- Constant `TiFs::BLOCK_SIZE = 1 << 12` (tikv_fs.rs line 42). -/
def BLOCK_SIZE : Nat := 1 <<< 12

/-- Modelled from the spec: `ROOT_INODE` is defined in `src/fs/key.rs`,
which is not among the provided sources; §6 of the spec fixes it as an
implementation-chosen constant, typically 1. -/
def ROOT_INODE : Nat := 1

/-- Constant `libc::O_DIRECT` (Linux x86-64): `0o40000`. -/
def O_DIRECT : Int := 16384

/-- Constant `fuser::consts::FOPEN_DIRECT_IO` (`1 << 0`); named in Lean without the
upper-case suffix. -/
def fopenDirectIo : Nat := 1

/-- Constant `libc::F_RDLCK` (Linux): 0. -/
def F_RDLCK : Int := 0

/-- Constant `libc::F_WRLCK` (Linux): 1. -/
def F_WRLCK : Int := 1

/-- Constant `libc::F_UNLCK` (Linux): 2. -/
def F_UNLCK : Int := 2

/-- A file name as raw bytes; Rust's `name.len()` is its length. -/
abbrev Name := List UInt8

/-- The error taxonomy of `src/fs/error.rs` as used by `tikv_fs.rs`
(`FsError` variants that the dispatcher constructs or matches on). -/
inductive FsError where
  | InodeNotFound (inode : Nat)
  | FileNotFound (file : Name)
  | FhNotFound (fh : Nat)
  | DirNotEmpty (dir : Name)
  | NameTooLong (file : Name)
  | InvalidOffset (ino : Nat) (offset : Int)
  | UnknownWhence (whence : Int)
  | InvalidLock
  | KeyError (msg : Nat)
  | Serialization
  | OtherErr
deriving DecidableEq, Repr

/-- The kind enum `fuser::FileType`, restricted to the kinds the engine stores. -/
inductive FileType where
  | RegularFile
  | Directory
  | Symlink
deriving DecidableEq, Repr

/-- Function `TiFs::check_file_name` (tikv_fs.rs lines 212-220): accept iff
`name.len() <= MAX_NAME_LEN`. -/
def check_file_name (name : Name) : Except FsError Unit :=
  if name.length ≤ MAX_NAME_LEN then .ok () else .error (.NameTooLong name)

/-- The dispatcher operations that receive a file name. -/
inductive NamedOp where
  | lookup | mkdir | rmdir | mknod | create | link | unlink | rename | symlink
deriving DecidableEq, Repr

/-- The name-validation phase each named dispatcher operation performs before
entering its transaction: every such operation in tikv_fs.rs opens with
`Self::check_file_name(&name)?` — except `unlink` (lines 564-567), whose body
passes the raw name straight to `txn.unlink` with no check. -/
def namePrecheck (op : NamedOp) (name : Name) : Except FsError Unit :=
  match op with
  | .unlink => .ok ()
  | _ => check_file_name name

/-- One directory entry as produced by `readdir` (reply `DirItem`). -/
structure DirItem where
  ino : Nat
  name : String
  typ : FileType
deriving DecidableEq, Repr

/-- Operation `TiFs::readdir` (tikv_fs.rs lines 332-359), with the stored directory
listing (obtained via `txn.read_dir`) passed in as `stored`.  Pushes `..`
with `ROOT_INODE` when `offset == 0`, `.` with `ino` when `offset <= 1`,
then `offset -= 2.min(offset)` and appends `stored` skipping that many. -/
def readdir (ino : Nat) (offset : Int) (stored : List DirItem) : List DirItem :=
  let d1 : List DirItem :=
    if offset = 0 then [⟨ROOT_INODE, "..", .Directory⟩] else []
  let d2 : List DirItem :=
    if offset ≤ 1 then d1 ++ [⟨ino, ".", .Directory⟩] else d1
  let offset' := offset - min 2 offset
  d2 ++ stored.drop offset'.toNat

/-- The reply-flags computation of `TiFs::open` (tikv_fs.rs lines 362-371):
`let mut open_flags = 0; if self.direct_io || flags | O_DIRECT != 0
{ open_flags |= FOPEN_DIRECT_IO; }`.  The `i32` argument `flags` is carried
as its bit pattern, a `Nat` below `2 ^ 32`. -/
def openFlags (direct_io : Bool) (flags : Nat) : Nat :=
  if direct_io || (flags ||| O_DIRECT.toNat ≠ 0) then fopenDirectIo else 0

/-- Structure `LockState` of `src/fs/inode.rs`: the lock kind (`libc` constant) plus the
set of owner ids (`HashSet<u64>`). -/
structure LockState where
  lk_type : Int
  owner_set : Finset Nat
deriving DecidableEq

/-- The inode fields `tikv_fs.rs` reads and writes in the claims at issue:
number, size, kind and lock state. -/
structure Inode where
  ino : Nat
  size : Nat
  kind : FileType
  lock_state : LockState
deriving DecidableEq

/-- The transaction body of `TiFs::setlk` (tikv_fs.rs lines 693-760): the
lock state machine for a non-waiting attempt.  Returns `(not_again, inode')`
where `inode'` is the saved inode (unchanged when nothing was saved);
`Ok(false)` means "conflict, caller should invoke `setlkw`". -/
def setlkTxn (inode : Inode) (lock_owner : Nat) (typ : Int) (sleep : Bool) :
    Except FsError (Bool × Inode) :=
  if inode.kind = .Directory then .error .InvalidLock
  else if typ = F_RDLCK then
    if inode.lock_state.lk_type = F_WRLCK then
      if sleep then .ok (false, inode) else .error .InvalidLock
    else
      .ok (true, { inode with
        lock_state := ⟨F_RDLCK, insert lock_owner inode.lock_state.owner_set⟩ })
  else if typ = F_WRLCK then
    if inode.lock_state.lk_type = F_RDLCK then
      if inode.lock_state.owner_set.card = 1 ∧
          lock_owner ∈ inode.lock_state.owner_set then
        .ok (true, { inode with
          lock_state := ⟨F_WRLCK, inode.lock_state.owner_set⟩ })
      else if sleep then .ok (false, inode) else .error .InvalidLock
    else if inode.lock_state.lk_type = F_UNLCK then
      .ok (true, { inode with lock_state := ⟨F_WRLCK, {lock_owner}⟩ })
    else if inode.lock_state.lk_type = F_WRLCK then
      if sleep then .ok (false, inode) else .error .InvalidLock
    else .error .InvalidLock
  else if typ = F_UNLCK then
    let s := inode.lock_state.owner_set.erase lock_owner
    .ok (true, { inode with
      lock_state := ⟨if s = ∅ then F_UNLCK else inode.lock_state.lk_type, s⟩ })
  else .error .InvalidLock

/-- The transaction body of `TiFs::setlkw` (tikv_fs.rs lines 169-200): one
iteration of the blocking-acquire loop.  `Ok(false)` means "not yet
grantable, loop again"; `Ok(true)` means granted with the returned inode
saved. -/
def setlkwTxn (inode : Inode) (lock_owner : Nat) (typ : Int) :
    Except FsError (Bool × Inode) :=
  if typ = F_WRLCK then
    if 1 < inode.lock_state.owner_set.card then .ok (false, inode)
    else if inode.lock_state.owner_set = ∅ then
      .ok (true, { inode with
        lock_state := ⟨F_WRLCK, insert lock_owner inode.lock_state.owner_set⟩ })
    else if lock_owner ∈ inode.lock_state.owner_set then
      .ok (true, { inode with
        lock_state := ⟨F_WRLCK, inode.lock_state.owner_set⟩ })
    else .error .InvalidLock
  else if typ = F_RDLCK then
    if inode.lock_state.lk_type = F_WRLCK then .ok (false, inode)
    else
      .ok (true, { inode with
        lock_state := ⟨F_RDLCK, insert lock_owner inode.lock_state.owner_set⟩ })
  else .error .InvalidLock

/-- Whether a `FsError` is the KV store's conflict signal
(`FsError::KeyError`), the one kind `TiFs::spin` retries on. -/
def FsError.isKeyError : FsError → Bool
  | .KeyError _ => true
  | _ => false

/-- What one transaction did at its end. -/
inductive TxnAction where
  | committed
  | rolledBack
deriving DecidableEq, Repr

/-- Function `TiFs::process_txn` (tikv_fs.rs lines 74-91): run the closure, commit the
transaction when it returns `Ok`, roll it back on `Err`.  The closure's
outcome is the argument; the pair records the transaction's fate alongside
the propagated result. -/
def process_txn {T : Type} (r : Except FsError T) : TxnAction × Except FsError T :=
  match r with
  | .ok v => (.committed, .ok v)
  | .error e => (.rolledBack, .error e)

/-- Driver `TiFs::spin` (tikv_fs.rs lines 102-119): loop, each iteration running the
closure under a fresh optimistic transaction via `process_txn`; retry on
`KeyError` (after the optional fixed `delay`), stop on `Ok` or any other
error.  The closure's behaviour across iterations is the list `attempts`
(one entry per fresh transaction); the result is the trace of transaction
fates plus the loop's outcome, `none` when the listed attempts are exhausted
with the loop still running. -/
def spin {T : Type} (delay : Option Nat) (attempts : List (Except FsError T)) :
    List TxnAction × Option (Except FsError T) :=
  match attempts with
  | [] => ([], none)
  | r :: rest =>
    match process_txn r with
    | (a, .ok v) => ([a], some (.ok v))
    | (a, .error e) =>
      if e.isKeyError then
        (a :: (spin delay rest).1, (spin delay rest).2)
      else ([a], some (.error e))

/-- Two's-complement reinterpretation of a `usize` value as `i64`
(Rust's `as i64` cast on a 64-bit machine). -/
def i64ofNat (n : Nat) : Int :=
  if n % 2 ^ 64 < 2 ^ 63 then ((n % 2 ^ 64 : Nat) : Int)
  else ((n % 2 ^ 64 : Nat) : Int) - 2 ^ 64

/-- Rust's `as usize` cast of an `i64` value on a 64-bit machine. -/
def usizeOfI64 (x : Int) : Nat := (x % (2 : Int) ^ 64).toNat

/-- Operation `TiFs::read` (tikv_fs.rs lines 374-393), up to the data layer: look up
the handle in the hub (`FhNotFound` when absent), compute
`start = cursor as i64 + offset`, fail `InvalidOffset` when negative, and
otherwise hand `(start as u64, size)` to `txn.read_data`.  The `Ok` value is
that pair of arguments. -/
def readOp (handles : Nat × Nat → Option Nat) (ino fh : Nat) (offset : Int)
    (size : Nat) : Except FsError (Nat × Nat) :=
  match handles (ino, fh) with
  | none => .error (.FhNotFound fh)
  | some cursor =>
    let start := i64ofNat cursor + offset
    if start < 0 then .error (.InvalidOffset ino start)
    else .ok (start.toNat, size)

/-- Operation `TiFs::write` (tikv_fs.rs lines 396-418), up to the data layer: look up
the handle (`FhNotFound` when absent), compute `start = cursor as i64 +
offset`, fail `InvalidOffset` when negative, otherwise hand
`(start as u64, data)` to `txn.write_data` and reply with `data.len()`.
The `Ok` value is the pair (start handed to the data layer, reply length). -/
def writeOp (handles : Nat × Nat → Option Nat) (ino fh : Nat) (offset : Int)
    (data : List UInt8) : Except FsError (Nat × Nat) :=
  match handles (ino, fh) with
  | none => .error (.FhNotFound fh)
  | some cursor =>
    let start := i64ofNat cursor + offset
    if start < 0 then .error (.InvalidOffset ino start)
    else .ok (start.toNat, data.length)

/-- The engine state the `fallocate` dispatcher touches: the persisted
inodes (KV store) and the in-memory open file table mapping `(ino, fh)` to
the handle's cursor. -/
structure FSState where
  inodes : Nat → Option Inode
  handles : Nat × Nat → Option Nat

/-- Modelled from the spec: `Txn::fallocate` lives in
`src/fs/transaction.rs`, which is not among the provided sources; §4.D says
`fallocate(ino, offset, length)` grows `size` to at least `offset+length`
(no blocks need materialising, and no error is specified). -/
def txnFallocate (inode : Inode) (offset length : Int) : Inode :=
  { inode with size := max inode.size (offset + length).toNat }

/-- Operation `TiFs::fallocate` (tikv_fs.rs lines 624-642): first a spun transaction
reads the inode (`InodeNotFound` when absent, rolling back) and applies
`txn.fallocate`, committing the new inode; only then is the handle looked up
(`FhNotFound` when absent — after the commit), and on success the handle's
cursor is set to `(offset + length) as usize`. -/
def fallocateOp (s : FSState) (ino fh : Nat) (offset length : Int) :
    FSState × Except FsError Unit :=
  match s.inodes ino with
  | none => (s, .error (.InodeNotFound ino))
  | some inode =>
    let inode' := txnFallocate inode offset length
    let s1 : FSState :=
      { s with inodes := fun i => if i = ino then some inode' else s.inodes i }
    match s1.handles (ino, fh) with
    | none => (s1, .error (.FhNotFound fh))
    | some _ =>
      ({ s1 with handles := fun p =>
          if p = (ino, fh) then some (usizeOfI64 (offset + length))
          else s1.handles p },
       .ok ())

/-! ## Theorems -/

/-- C9: `check_file_name` accepts a name of exactly `MAX_NAME_LEN` (256)
bytes and rejects a name of `MAX_NAME_LEN + 1` bytes with `NameTooLong`. -/
theorem check_file_name_boundary (name : Name) :
    (name.length = MAX_NAME_LEN → check_file_name name = .ok ()) ∧
    (name.length = MAX_NAME_LEN + 1 →
      check_file_name name = .error (.NameTooLong name)) := by
  constructor <;> intro h <;> simp [check_file_name, MAX_NAME_LEN] at h ⊢ <;> omega

/-- Witness for C9: concrete names of 256 and 257 bytes. -/
theorem check_file_name_boundary_witness :
    check_file_name (List.replicate 256 (0 : UInt8)) = .ok () ∧
    check_file_name (List.replicate 257 (0 : UInt8)) =
      .error (.NameTooLong (List.replicate 257 (0 : UInt8))) :=
  ⟨(check_file_name_boundary _).1 (by simp only [List.length_replicate]; decide),
   (check_file_name_boundary _).2 (by simp only [List.length_replicate]; decide)⟩

/-- C5: for a non-negative `readdir` offset the reply is `..` exactly when
the offset is 0, then `.` exactly when the offset is at most 1, then the
stored entries from index `max 0 (offset - 2)` in stored order. -/
theorem readdir_spec (ino : Nat) (offset : Int) (stored : List DirItem)
    (h : 0 ≤ offset) :
    readdir ino offset stored =
      (if offset = 0 then [⟨ROOT_INODE, "..", .Directory⟩] else []) ++
      (if offset ≤ 1 then [⟨ino, ".", .Directory⟩] else []) ++
      stored.drop (max 0 (offset - 2)).toNat := by
  have hidx : (offset - min 2 offset).toNat = (max 0 (offset - 2)).toNat := by omega
  simp only [readdir]
  by_cases h0 : offset = 0
  · subst h0; simp
  · by_cases h1 : offset ≤ 1
    · rw [if_neg h0, if_pos h1, hidx]
      simp [h1]
    · rw [if_neg h0, if_neg h1, hidx]
      simp [h1]

/-- Witness for C5: `readdir` at offset 0 on a one-entry directory. -/
theorem readdir_spec_witness :
    readdir 5 0 [⟨7, "x", .RegularFile⟩] =
      (if (0 : Int) = 0 then [⟨ROOT_INODE, "..", .Directory⟩] else []) ++
      (if (0 : Int) ≤ 1 then [⟨5, ".", .Directory⟩] else []) ++
      ([⟨7, "x", .RegularFile⟩] : List DirItem).drop (max 0 ((0 : Int) - 2)).toNat :=
  readdir_spec 5 0 _ (by decide)

/-- C10: the synthetic `..` entry produced by `readdir` at offset 0 always
carries inode number `ROOT_INODE`, whatever directory `ino` is being listed
(its actual parent is never consulted). -/
theorem readdir_dotdot_is_root (ino : Nat) (stored : List DirItem) :
    (readdir ino 0 stored).head? = some ⟨ROOT_INODE, "..", .Directory⟩ := by
  simp [readdir]

/-- C1: the reply-flags computation of `TiFs::open` sets `FOPEN_DIRECT_IO`
for every input — in particular when the mount option `direct_io` is unset
and `O_DIRECT` is absent from the caller's flags, where the claim requires a
zero flags field — because the source tests `flags | O_DIRECT != 0`
(bitwise or) instead of `flags & O_DIRECT != 0`. -/
theorem open_direct_io_always_set :
    (∀ (direct_io : Bool) (flags : Nat), openFlags direct_io flags = fopenDirectIo) ∧
    openFlags false 0 = fopenDirectIo ∧ fopenDirectIo ≠ 0 := by
  refine ⟨fun direct_io flags => ?_, rfl, by decide⟩
  have h : flags ||| O_DIRECT.toNat ≠ 0 := by
    intro h0
    have ht := congrArg (fun n => Nat.testBit n 14) h0
    simp [Nat.testBit_or, O_DIRECT] at ht
    exact absurd ht.2 (by decide)
  simp [openFlags, h]

/-- C4 counterexample: `unlink` performs no name-length validation — on a
name of `MAX_NAME_LEN + 1` bytes its pre-transaction validation phase
succeeds instead of failing with `NameTooLong`. -/
theorem unlink_skips_name_check :
    namePrecheck .unlink (List.replicate (MAX_NAME_LEN + 1) 0) = .ok () ∧
    MAX_NAME_LEN < (List.replicate (MAX_NAME_LEN + 1) (0 : UInt8)).length := by
  constructor
  · rfl
  · simp only [List.length_replicate]
    omega

/-- C4 amended: every dispatcher operation that receives a file name —
lookup, mkdir, rmdir, mknod, create, link, rename, symlink — validates the
name length up front, failing with `NameTooLong` when it exceeds
`MAX_NAME_LEN`, except `unlink`, which passes the name to its transaction
without any validation. -/
theorem name_validation_amended (op : NamedOp) (name : Name) :
    (op ≠ .unlink → MAX_NAME_LEN < name.length →
      namePrecheck op name = .error (.NameTooLong name)) ∧
    (op = .unlink → namePrecheck op name = .ok ()) := by
  constructor
  · intro hne hlen
    have hnot : ¬ name.length ≤ MAX_NAME_LEN := by omega
    cases op <;>
      first
        | exact absurd rfl hne
        | simp [namePrecheck, check_file_name, hnot]
  · intro h; subst h; rfl

/-- Witness for C4's amended claim: `lookup` rejects a 257-byte name while
`unlink` accepts it. -/
theorem name_validation_amended_witness :
    namePrecheck .lookup (List.replicate 257 (0 : UInt8)) =
      .error (.NameTooLong (List.replicate 257 (0 : UInt8))) ∧
    namePrecheck .unlink (List.replicate 257 (0 : UInt8)) = .ok () :=
  ⟨(name_validation_amended .lookup _).1 (by decide)
      (by simp only [List.length_replicate]; decide),
   (name_validation_amended .unlink _).2 rfl⟩

/-- C6: a spun closure whose first attempts all end in `KeyError` and whose
next attempt is an `Ok` or a non-`KeyError` error produces one fresh
transaction per attempt — every `KeyError` attempt is rolled back and
followed by another iteration, and the loop ends at the first other outcome,
committing exactly when that outcome is `Ok` and returning it. -/
theorem spin_spec {T : Type} (delay : Option Nat) (pre : List (Except FsError T))
    (t : Except FsError T) (rest : List (Except FsError T))
    (hpre : ∀ r ∈ pre, ∃ m, r = .error (.KeyError m))
    (ht : ∀ e, t = .error e → e.isKeyError = false) :
    spin delay (pre ++ t :: rest) =
      (pre.map (fun _ => TxnAction.rolledBack) ++ [(process_txn t).1], some t) ∧
    ((process_txn t).1 = .committed ↔ ∃ v, t = .ok v) := by
  constructor
  · induction pre with
    | nil =>
      cases t with
      | ok v => simp [spin, process_txn]
      | error e =>
        have he := ht e rfl
        simp [spin, process_txn, he]
    | cons r rs ih =>
      obtain ⟨m, rfl⟩ := hpre r (by simp)
      have ih' := ih (fun x hx => hpre x (by simp [hx]))
      simp only [List.cons_append, spin, process_txn, FsError.isKeyError, ih']
      simp [ih']
      rfl
  · cases t <;> simp [process_txn]

/-- Witness for C6: one `KeyError` attempt, then a successful one. -/
theorem spin_spec_witness :
    spin (T := Nat) none ([.error (.KeyError 0)] ++ .ok 5 :: []) =
      (([Except.error (FsError.KeyError 0)] : List (Except FsError Nat)).map
          (fun _ => TxnAction.rolledBack) ++ [(process_txn (.ok (5 : Nat))).1],
        some (.ok 5)) ∧
    ((process_txn (.ok (5 : Nat))).1 = .committed ↔
      ∃ v : Nat, (Except.ok 5 : Except FsError Nat) = Except.ok v) :=
  spin_spec none [.error (.KeyError 0)] (.ok 5) []
    (fun r hr => ⟨0, by simpa using hr⟩)
    (fun e he => nomatch he)

/-- C8: `read` and `write` fail with `FhNotFound` when the handle `(ino, fh)`
is absent; otherwise the effective start of the data operation is the
handle's cursor plus the given offset, and the call fails with
`InvalidOffset` — handing nothing to the data layer — exactly when that
start is negative. -/
theorem read_write_start_spec (handles : Nat × Nat → Option Nat) (ino fh : Nat)
    (offset : Int) (size : Nat) (data : List UInt8) :
    (handles (ino, fh) = none →
      readOp handles ino fh offset size = .error (.FhNotFound fh) ∧
      writeOp handles ino fh offset data = .error (.FhNotFound fh)) ∧
    (∀ cursor, handles (ino, fh) = some cursor → cursor < 2 ^ 63 →
      ((cursor : Int) + offset < 0 →
        readOp handles ino fh offset size =
          .error (.InvalidOffset ino ((cursor : Int) + offset)) ∧
        writeOp handles ino fh offset data =
          .error (.InvalidOffset ino ((cursor : Int) + offset))) ∧
      (0 ≤ (cursor : Int) + offset →
        readOp handles ino fh offset size =
          .ok (((cursor : Int) + offset).toNat, size) ∧
        writeOp handles ino fh offset data =
          .ok (((cursor : Int) + offset).toNat, data.length))) := by
  have hcast : ∀ n : Nat, n < 2 ^ 63 → i64ofNat n = (n : Int) := by
    intro n hn
    unfold i64ofNat
    have h64 : n % 2 ^ 64 = n := Nat.mod_eq_of_lt (by omega)
    rw [h64, if_pos hn]
  refine ⟨fun h => ?_, fun cursor hc hlt => ⟨fun hneg => ?_, fun hpos => ?_⟩⟩
  · simp [readOp, writeOp, h]
  · simp [readOp, writeOp, hc, hcast cursor hlt, hneg]
  · simp [readOp, writeOp, hc, hcast cursor hlt, not_lt.mpr hpos]

/-- Witness for C8: a handle at cursor 10 with offset −4 reads from start 6;
with offset −11 the computed start −1 is rejected; a missing handle is
`FhNotFound`. -/
theorem read_write_start_spec_witness :
    (readOp (fun p => if p = (3, 7) then some 10 else none) 3 7 (-4) 5 =
      .ok ((((10 : Nat) : Int) + (-4)).toNat, 5) ∧
     writeOp (fun p => if p = (3, 7) then some 10 else none) 3 7 (-4) [1, 2] =
      .ok ((((10 : Nat) : Int) + (-4)).toNat, ([1, 2] : List UInt8).length)) ∧
    (readOp (fun p => if p = (3, 7) then some 10 else none) 3 7 (-11) 5 =
      .error (.InvalidOffset 3 (((10 : Nat) : Int) + (-11))) ∧
     writeOp (fun p => if p = (3, 7) then some 10 else none) 3 7 (-11) [1, 2] =
      .error (.InvalidOffset 3 (((10 : Nat) : Int) + (-11)))) ∧
    (readOp (fun _ => none) 3 8 0 5 = .error (.FhNotFound 8) ∧
     writeOp (fun _ => none) 3 8 0 [1, 2] = .error (.FhNotFound 8)) :=
  ⟨((read_write_start_spec (fun p => if p = (3, 7) then some 10 else none)
        3 7 (-4) 5 [1, 2]).2 10 (by decide) (by norm_num)).2 (by decide),
   ((read_write_start_spec (fun p => if p = (3, 7) then some 10 else none)
        3 7 (-11) 5 [1, 2]).2 10 (by decide) (by norm_num)).1 (by decide),
   (read_write_start_spec (fun _ => none) 3 8 0 5 [1, 2]).1 rfl⟩

/-- C7: `setlk` with `blocking == false` fails with `InvalidLock` when the
requested transition is forbidden — a shared request while the lock type is
exclusive, or an exclusive request while some other owner holds the lock —
and every `setlk` whose target inode is a directory fails with
`InvalidLock`. -/
theorem setlk_nonblocking_invalid (inode : Inode) (owner o : Nat)
    (typ : Int) (sleep : Bool) :
    (inode.kind = .Directory → setlkTxn inode owner typ sleep = .error .InvalidLock) ∧
    (inode.lock_state.lk_type = F_WRLCK →
      setlkTxn inode owner F_RDLCK false = .error .InvalidLock) ∧
    (o ∈ inode.lock_state.owner_set → o ≠ owner →
      (inode.lock_state.lk_type = F_RDLCK ∨ inode.lock_state.lk_type = F_WRLCK) →
      setlkTxn inode owner F_WRLCK false = .error .InvalidLock) := by
  refine ⟨fun hdir => ?_, fun hw => ?_, fun ho hne hlk => ?_⟩
  · simp [setlkTxn, hdir]
  · by_cases hdir : inode.kind = .Directory
    · simp [setlkTxn, hdir]
    · simp [setlkTxn, hdir, hw, F_RDLCK, F_WRLCK]
  · by_cases hdir : inode.kind = .Directory
    · simp [setlkTxn, hdir]
    · rcases hlk with h1 | h1
      · have hgrant : ¬(inode.lock_state.owner_set.card = 1 ∧
            owner ∈ inode.lock_state.owner_set) := by
          rintro ⟨hcard, hmem⟩
          obtain ⟨a, ha⟩ := Finset.card_eq_one.mp hcard
          rw [ha, Finset.mem_singleton] at ho hmem
          exact hne (ho.trans hmem.symm)
        simp [setlkTxn, hdir, h1, hgrant, F_RDLCK, F_WRLCK, F_UNLCK]
      · simp [setlkTxn, hdir, h1, F_RDLCK, F_WRLCK, F_UNLCK]

/-- Witness for C7: a directory refuses any lock; on a regular file whose
exclusive lock is held by owner 2, owner 1's non-blocking shared and
exclusive requests both fail with `InvalidLock`. -/
theorem setlk_nonblocking_invalid_witness :
    setlkTxn ⟨4, 0, .Directory, ⟨F_UNLCK, ∅⟩⟩ 1 F_RDLCK false = .error .InvalidLock ∧
    setlkTxn ⟨4, 0, .RegularFile, ⟨F_WRLCK, {2}⟩⟩ 1 F_RDLCK false =
      .error .InvalidLock ∧
    setlkTxn ⟨4, 0, .RegularFile, ⟨F_WRLCK, {2}⟩⟩ 1 F_WRLCK false =
      .error .InvalidLock :=
  ⟨(setlk_nonblocking_invalid ⟨4, 0, .Directory, ⟨F_UNLCK, ∅⟩⟩ 1 2 F_RDLCK false).1
      rfl,
   (setlk_nonblocking_invalid ⟨4, 0, .RegularFile, ⟨F_WRLCK, {2}⟩⟩ 1 2
      F_RDLCK false).2.1 rfl,
   (setlk_nonblocking_invalid ⟨4, 0, .RegularFile, ⟨F_WRLCK, {2}⟩⟩ 1 2
      F_WRLCK false).2.2 (by decide) (by decide) (Or.inr rfl)⟩

/-- C3: on an inode whose exclusive lock is held by the single other owner 2
— a conflicting state that becomes grantable once owner 2 unlocks — a
blocking exclusive request by owner 1 gets the pending indication from the
`setlk` transaction, but the `setlkw` iteration it then triggers returns
`InvalidLock` instead of retrying; the same state is indeed eventually
grantable, since after owner 2's unlock the identical `setlkw` iteration
grants the lock. -/
theorem setlkw_errors_on_grantable_conflict :
    setlkTxn ⟨9, 0, .RegularFile, ⟨F_WRLCK, {2}⟩⟩ 1 F_WRLCK true =
      .ok (false, ⟨9, 0, .RegularFile, ⟨F_WRLCK, {2}⟩⟩) ∧
    setlkwTxn ⟨9, 0, .RegularFile, ⟨F_WRLCK, {2}⟩⟩ 1 F_WRLCK =
      .error .InvalidLock ∧
    setlkTxn ⟨9, 0, .RegularFile, ⟨F_WRLCK, {2}⟩⟩ 2 F_UNLCK false =
      .ok (true, ⟨9, 0, .RegularFile, ⟨F_UNLCK, ∅⟩⟩) ∧
    setlkwTxn ⟨9, 0, .RegularFile, ⟨F_UNLCK, ∅⟩⟩ 1 F_WRLCK =
      .ok (true, ⟨9, 0, .RegularFile, ⟨F_WRLCK, {1}⟩⟩) := by
  refine ⟨?_, ?_, ?_, ?_⟩ <;> rfl

/-- C2 counterexample: on a state holding inode 2 (size 0) and no open
handle, `fallocate(ino 2, fh 7, offset 3, length 4)` returns the error
`FhNotFound` — yet the persisted inode's size has changed from 0 to 7,
because the transaction commits before the handle is looked up. -/
theorem fallocate_not_atomic_cex :
    (fallocateOp
        ⟨fun i => if i = 2 then some ⟨2, 0, .RegularFile, ⟨F_UNLCK, ∅⟩⟩ else none,
         fun _ => none⟩ 2 7 3 4).2 = .error (.FhNotFound 7) ∧
    ((fallocateOp
        ⟨fun i => if i = 2 then some ⟨2, 0, .RegularFile, ⟨F_UNLCK, ∅⟩⟩ else none,
         fun _ => none⟩ 2 7 3 4).1.inodes 2) =
      some ⟨2, 7, .RegularFile, ⟨F_UNLCK, ∅⟩⟩ := by
  constructor <;> rfl

/-- C2 amended: the `fallocate` transaction itself is atomic — when the
inode read fails the state is untouched — but the handle is looked up only
after the transaction commits, so when `(ino, fh)` is absent the call fails
with `FhNotFound` with the grown size already persisted; on success the
handle cursor equals `offset + length` (cast to `usize`, the identity for
in-range non-negative values). -/
theorem fallocate_amended (s : FSState) (ino fh : Nat) (offset length : Int) :
    (s.inodes ino = none →
      fallocateOp s ino fh offset length = (s, .error (.InodeNotFound ino))) ∧
    (∀ inode, s.inodes ino = some inode →
      (s.handles (ino, fh) = none →
        (fallocateOp s ino fh offset length).2 = .error (.FhNotFound fh) ∧
        (fallocateOp s ino fh offset length).1.inodes ino =
          some (txnFallocate inode offset length)) ∧
      (∀ c, s.handles (ino, fh) = some c →
        (fallocateOp s ino fh offset length).2 = .ok () ∧
        (fallocateOp s ino fh offset length).1.inodes ino =
          some (txnFallocate inode offset length) ∧
        (fallocateOp s ino fh offset length).1.handles (ino, fh) =
          some (usizeOfI64 (offset + length)) ∧
        (0 ≤ offset + length → offset + length < 2 ^ 64 →
          usizeOfI64 (offset + length) = (offset + length).toNat))) := by
  refine ⟨fun h => ?_, fun inode hi => ⟨fun hh => ?_, fun c hc => ?_⟩⟩
  · simp [fallocateOp, h]
  · simp [fallocateOp, hi, hh]
  · refine ⟨?_, ?_, ?_, fun h0 hlt => ?_⟩
    · simp [fallocateOp, hi, hc]
    · simp [fallocateOp, hi, hc]
    · simp [fallocateOp, hi, hc]
    · unfold usizeOfI64
      rw [Int.emod_eq_of_lt h0 hlt]

/-- Witness for C2's amended claim: with inode 2 present and handle
`(2, 7)` open at cursor 0, `fallocate(2, 7, 3, 4)` succeeds, persists size
`max 0 (3+4) = 7` and moves the cursor to 7. -/
theorem fallocate_amended_witness :
    (fallocateOp
        ⟨fun i => if i = 2 then some ⟨2, 0, .RegularFile, ⟨F_UNLCK, ∅⟩⟩ else none,
         fun p => if p = (2, 7) then some 0 else none⟩ 2 7 3 4).2 = .ok () ∧
    (fallocateOp
        ⟨fun i => if i = 2 then some ⟨2, 0, .RegularFile, ⟨F_UNLCK, ∅⟩⟩ else none,
         fun p => if p = (2, 7) then some 0 else none⟩ 2 7 3 4).1.inodes 2 =
      some (txnFallocate ⟨2, 0, .RegularFile, ⟨F_UNLCK, ∅⟩⟩ 3 4) ∧
    (fallocateOp
        ⟨fun i => if i = 2 then some ⟨2, 0, .RegularFile, ⟨F_UNLCK, ∅⟩⟩ else none,
         fun p => if p = (2, 7) then some 0 else none⟩ 2 7 3 4).1.handles (2, 7) =
      some (usizeOfI64 (3 + 4)) ∧
    usizeOfI64 ((3 : Int) + 4) = ((3 : Int) + 4).toNat := by
  have h := ((fallocate_amended
      ⟨fun i => if i = 2 then some ⟨2, 0, .RegularFile, ⟨F_UNLCK, ∅⟩⟩ else none,
       fun p => if p = (2, 7) then some 0 else none⟩ 2 7 3 4).2
      ⟨2, 0, .RegularFile, ⟨F_UNLCK, ∅⟩⟩ rfl).2 0 rfl
  exact ⟨h.1, h.2.1, h.2.2.1, h.2.2.2 (by decide) (by decide)⟩

end TiFs
